import Mathlib

/-!
Verification of the authentication core of the fastapi-blog-api repository:
the token codec, credential hasher, principal resolution and the route
guards of `app/routers/auth.py` and `app/routers/admin.py`, embedded
shallowly.  Database sessions are embedded as lists of rows; SQLAlchemy
`filter(...).first()` becomes `List.find?`.  `app/utils/security.py` is not
among the sources, so the token codec and password hasher are modelled from
the specification (their definitions say so in their doc comments); all
router code is translated directly from the source.
-/

/-- An HTTP error response as raised through FastAPI's `HTTPException`:
status code, detail string, and whether the `WWW-Authenticate: Bearer`
header is attached. -/
structure HTTPError where
  statusCode : Nat
  detail : String
  wwwAuthenticate : Bool
  deriving DecidableEq

/-- The reusable 401 raised by `get_current_user` in `app/routers/auth.py`
(lines 58-62): generic detail and the `WWW-Authenticate: Bearer` header. -/
def credentials_exception : HTTPError :=
  ⟨401, "Could not validate credentials", true⟩

/-- The generic 400 raised by both login routes on any credential failure. -/
def invalid_credentials : HTTPError :=
  ⟨400, "Invalid credentials", false⟩

/-- Modelled from the spec: `JWT_SECRET_KEY` default from
`app/utils/config.py` ("myjwtsecretkey"); the signing secret is
process-wide and immutable. -/
def JWT_SECRET_KEY : String := "myjwtsecretkey"

/-- Modelled from the spec: the access-token lifetime (`ACCESS_TTL`,
"on the order of tens of minutes"); `app/utils/security.py` is absent from
the sources, so the concrete value is a representative constant. -/
def ACCESS_TTL : Nat := 1800

/-- Modelled from the spec: the refresh-token lifetime (`REFRESH_TTL`,
"on the order of days", with `REFRESH_TTL` far larger than `ACCESS_TTL`). -/
def REFRESH_TTL : Nat := 604800

/-- Modelled from the spec: the claims structure carried by a signed token,
`{sub: subject, kind: "access" | "refresh", exp: absolute expiry}`. -/
structure TokenClaims where
  sub : String
  kind : String
  exp : Nat
  deriving DecidableEq

/-- Modelled from the spec: a compact signed-claims string, represented as
the claims together with their signature value. -/
structure SignedToken where
  claims : TokenClaims
  sig : Nat
  deriving DecidableEq

/-- Modelled from the spec: the symmetric signature over the claims;
`app/utils/security.py` is absent, so a concrete deterministic keyed mixing
function stands in for the real MAC. -/
def signClaims (secret : String) (c : TokenClaims) : Nat :=
  (secret ++ "|" ++ c.sub ++ "|" ++ c.kind).data.foldl
    (fun acc ch => acc * 131 + ch.toNat) (c.exp + 1)

/-- Modelled from the spec: `issue_access(subject, now)` — a signed token
with claims `{sub: subject, kind: "access", exp: now + ACCESS_TTL}`.
Named after the wrapper `create_access_token` called at
`app/routers/auth.py` line 173. -/
def create_access_token (sub : String) (now : Nat) : SignedToken :=
  ⟨⟨sub, "access", now + ACCESS_TTL⟩,
    signClaims JWT_SECRET_KEY ⟨sub, "access", now + ACCESS_TTL⟩⟩

/-- Modelled from the spec: `issue_refresh(subject, now)` — same shape with
`kind: "refresh"` and `exp: now + REFRESH_TTL`. -/
def create_refresh_token (sub : String) (now : Nat) : SignedToken :=
  ⟨⟨sub, "refresh", now + REFRESH_TTL⟩,
    signClaims JWT_SECRET_KEY ⟨sub, "refresh", now + REFRESH_TTL⟩⟩

/-- Modelled from the spec: the three distinguishable decode failures. -/
inductive TokenError where
  | malformed
  | expired
  | invalid
  deriving DecidableEq

/-- Modelled from the spec: `decode(token, expected_kind, now)` — verifies
the signature, then `now < exp`, then `kind == expected_kind`; fails with
`TokenMalformed` on an unparseable wire (here `none`), `TokenExpired` on
the clock check, `TokenInvalid` on the signature or kind check. -/
def decodeToken (wire : Option SignedToken) (expectedKind : String) (now : Nat) :
    Except TokenError TokenClaims :=
  match wire with
  | none => .error .malformed
  | some t =>
    if t.sig = signClaims JWT_SECRET_KEY t.claims then
      if now < t.claims.exp then
        if t.claims.kind = expectedKind then .ok t.claims
        else .error .invalid
      else .error .expired
    else .error .invalid

/-- The decoded claims dictionary as consumed by the routers: the only key
they read is `sub`, via `payload.get("sub")`, which may be absent. -/
structure Payload where
  sub : Option String
  deriving DecidableEq

/-- Modelled from the spec: the `verify_access_token` wrapper used by both
guards; the source checks `if payload is None` after calling it
(`app/routers/auth.py` line 66), so it returns the payload on success and
`none` on any decode failure. -/
def verify_access_token (wire : Option SignedToken) (now : Nat) : Option Payload :=
  match decodeToken wire "access" now with
  | .ok c => some ⟨some c.sub⟩
  | .error _ => none

/-- Modelled from the spec: the `verify_refresh_token` wrapper, parallel to
`verify_access_token` but expecting kind "refresh". -/
def verify_refresh_token (wire : Option SignedToken) (now : Nat) : Option Payload :=
  match decodeToken wire "refresh" now with
  | .ok c => some ⟨some c.sub⟩
  | .error _ => none

/-- Modelled from the spec: the decimal character for a digit, used by the
hasher's digest encoding. -/
def digitChar (d : Nat) : Char := Char.ofNat (48 + d)

/-- Modelled from the spec: whether a character is a decimal digit. -/
def isDigitCh (c : Char) : Bool := 48 ≤ c.toNat && c.toNat ≤ 57

/-- Modelled from the spec: little-endian decimal digits of a number,
computed with explicit fuel so that it evaluates inside the kernel. -/
def natDigitsAux : Nat → Nat → List Nat
  | _, 0 => []
  | 0, _ + 1 => []
  | fuel + 1, n + 1 => ((n + 1) % 10) :: natDigitsAux fuel ((n + 1) / 10)

/-- Modelled from the spec: the decimal character string of a number
(empty for zero, which the digest parser reads back as zero). -/
def natChars (n : Nat) : List Char := ((natDigitsAux n n).map digitChar).reverse

/-- Modelled from the spec: read a decimal character string back as a
number; `none` when any character is not a digit. -/
def parseNat (l : List Char) : Option Nat :=
  if l.all isDigitCh then
    some (l.foldl (fun a c => a * 10 + (c.toNat - 48)) 0)
  else none

/-- Value of a little-endian digit list; specification device for the
digest round-trip proofs. -/
def ofDigs (ds : List Nat) : Nat := ds.foldr (fun d acc => d + 10 * acc) 0

/-- Modelled from the spec: the salted one-way transform at the heart of
the hasher; `app/utils/security.py` is absent, so a concrete deterministic
keyed mixing function stands in for the adaptive hash. -/
def hashCore (salt : Nat) (plaintext : String) : Nat :=
  plaintext.data.foldl (fun acc c => acc * 31 + c.toNat + 7) (salt + 1)

/-- Modelled from the spec: `hash(plaintext) -> digest` with a per-call
random salt embedded in the output; the salt is made an explicit argument
so that the roundtrip property is proved for every possible salt.  The
digest wire format is `<salt digits>$<hash digits>`. -/
def hash_password (plaintext : String) (salt : Nat) : String :=
  ⟨natChars salt ++ '$' :: natChars (hashCore salt plaintext)⟩

/-- Modelled from the spec: split a digest into its embedded salt and hash
value; `none` on any malformed digest. -/
def parseDigest (digest : String) : Option (Nat × Nat) :=
  match digest.data.dropWhile (fun c => c != '$') with
  | [] => none
  | _ :: rest =>
    match parseNat (digest.data.takeWhile (fun c => c != '$')),
        parseNat rest with
    | some s, some h => some (s, h)
    | _, _ => none

/-- Modelled from the spec: `verify(plaintext, digest)` recomputes the hash
using the salt embedded in the digest and compares; returns `false` on any
malformed digest rather than raising. -/
def verify_password (plaintext digest : String) : Bool :=
  match parseDigest digest with
  | none => false
  | some (salt, h) => hashCore salt plaintext == h

/-- A row of the `users` table (`app/models/user.py`), restricted to the
columns the authentication core reads; `username` and `email` are unique
columns and `id` is the primary key. -/
structure User where
  id : Nat
  username : String
  email : String
  hashed_password : String
  deriving DecidableEq

/-- A row of the `admins` table (`app/models/admin.py`), a table disjoint
from `users`; `username` and `email` are unique and `id` is the key. -/
structure Admin where
  id : Nat
  username : String
  email : String
  hashed_password : String
  deriving DecidableEq

/-- The user guard `get_current_user` of `app/routers/auth.py` (lines
41-85), taking the result of `verify_access_token` and the session state:
every failure branch raises the same `credentials_exception`. -/
def get_current_user (payload : Option Payload) (db : List User) :
    Except HTTPError User :=
  match payload with
  | none => .error credentials_exception
  | some p =>
    match p.sub with
    | none => .error credentials_exception
    | some username =>
      match db.find? (fun u => u.username == username) with
      | none => .error credentials_exception
      | some u => .ok u

/-- The admin guard `get_admin_user` of `app/routers/admin.py` (lines
32-69): a failed token check raises 401 with the header, a missing `sub`
raises 401 with a different detail, and a failed `admins`-table lookup
raises 403 without the `WWW-Authenticate` header. -/
def get_admin_user (payload : Option Payload) (db : List Admin) :
    Except HTTPError Admin :=
  match payload with
  | none => .error ⟨401, "Could not validate credentials", true⟩
  | some p =>
    match p.sub with
    | none => .error ⟨401, "Invalid token payload", true⟩
    | some username =>
      match db.find? (fun a => a.username == username) with
      | none => .error ⟨403, "Not authorized to access this resource", false⟩
      | some a => .ok a

/-- `protected_route` of `app/routers/auth.py` (lines 187-200): the handler
body runs only when the user guard succeeds. -/
def protected_route (payload : Option Payload) (db : List User) :
    Except HTTPError String :=
  (get_current_user payload db).map
    (fun u => "Hello, " ++ u.username ++ "! You have access to this protected route.")

/-- The success body of `user_login`. -/
structure LoginOut where
  access_token : SignedToken
  refresh_token : SignedToken
  username : String
  user_id : Nat
  deriving DecidableEq

/-- `user_login` of `app/routers/auth.py` (lines 144-183): looks the user
up by email, verifies the password, and on failure of either half raises
the one generic `invalid_credentials`; on success mints access and refresh
tokens for `{"sub": username}`. -/
def user_login (db : List User) (email password : String) (now : Nat) :
    Except HTTPError LoginOut :=
  match db.find? (fun u => u.email == email) with
  | none => .error invalid_credentials
  | some u =>
    if verify_password password u.hashed_password then
      .ok ⟨create_access_token u.username now, create_refresh_token u.username now,
        u.username, u.id⟩
    else .error invalid_credentials

/-- The admin `login` of `app/routers/admin.py` (lines 72-89): same shape
over the `admins` table, minting a single access token for
`{"sub": username}`. -/
def login (db : List Admin) (email password : String) (now : Nat) :
    Except HTTPError (SignedToken × String × Nat) :=
  match db.find? (fun a => a.email == email) with
  | none => .error invalid_credentials
  | some a =>
    if verify_password password a.hashed_password then
      .ok (create_access_token a.username now, a.username, a.id)
    else .error invalid_credentials

/-- Outcome of a route body that, besides returning or raising an
`HTTPException`, can also hit an uncaught Python exception (which the
framework surfaces as a generic 500, not an auth response). -/
inductive RouteResult (α : Type) where
  | ok (val : α)
  | err (e : HTTPError)
  | unhandled
  deriving DecidableEq

/-- `get_refresh_token` of `app/routers/auth.py` (lines 203-235), taking
the result of `verify_refresh_token`: the source applies `.get("sub")` to
the payload without a `None` check, so a failed refresh verification is an
uncaught `AttributeError`; a missing `sub` and an unknown user raise 401s
with two distinct details and no `WWW-Authenticate` header. -/
def get_refresh_token (payload : Option Payload) (db : List User) (now : Nat) :
    RouteResult SignedToken :=
  match payload with
  | none => .unhandled
  | some p =>
    match p.sub with
    | none => .err ⟨401, "Invalid refresh token payload", false⟩
    | some username =>
      match db.find? (fun u => u.username == username) with
      | none => .err ⟨401, "User not found", false⟩
      | some _ => .ok (create_access_token username now)

/-- `delete_account` of `app/routers/auth.py` (lines 238-274), with `u` the
principal returned by the user guard: the source subscripts
`first()[0]` on the username-and-email lookup (an uncaught `TypeError`
when the lookup is empty), re-queries by the found id, raises 404 when
that misses, and otherwise deletes the found row. -/
def delete_account (db : List User) (u : User) : RouteResult (String × List User) :=
  match db.find? (fun x => x.username == u.username && x.email == u.email) with
  | none => .unhandled
  | some row =>
    match db.find? (fun x => x.id == row.id) with
    | none => .err ⟨404, "User not found", false⟩
    | some target =>
      .ok ("Deleted account of '" ++ target.username ++ "' successfully",
        db.erase target)

/-- The sanitization pattern of `get_logs` (`app/routers/admin.py` line
188): the exact, case-sensitive substring replaced. -/
def passwordPat : List Char := ['p', 'a', 's', 's', 'w', 'o', 'r', 'd']

/-- The replacement text of `get_logs`. -/
def stars : List Char := ['*', '*', '*', '*']

/-- Python's `str.replace("password", "****")` on one log line: leftmost,
non-overlapping replacement of every occurrence, scanning left to right;
written with explicit fuel so that it evaluates inside the kernel. -/
def sanitizeAux : Nat → List Char → List Char
  | _, [] => []
  | 0, l => l
  | fuel + 1, c :: cs =>
    if passwordPat <+: c :: cs then stars ++ sanitizeAux fuel (cs.drop 7)
    else c :: sanitizeAux fuel cs

/-- One log line after `line.replace("password", "****")`. -/
def sanitizeLine (l : List Char) : List Char := sanitizeAux l.length l

/-- `get_logs` of `app/routers/admin.py` (lines 172-196), after the guard
and the file read: sanitize every line, then paginate with the Python
slice `[skip : skip + limit]` (lines as character lists). -/
def get_logs (fileLines : List (List Char)) (skip limit : Nat) :
    List (List Char) :=
  (((fileLines.map sanitizeLine)).drop skip).take limit

theorem ACCESS_TTL_pos : 0 < ACCESS_TTL := by decide

/-- Decoding a freshly issued access token at any instant before its expiry
succeeds and returns the claims it was minted with. -/
theorem decode_access_ok (s : String) (now t : Nat) (h : t < now + ACCESS_TTL) :
    decodeToken (some (create_access_token s now)) "access" t
      = .ok ⟨s, "access", now + ACCESS_TTL⟩ := by
  simp [decodeToken, create_access_token, h]

/-- On any decode failure the access-token wrapper returns `none`. -/
theorem verify_access_token_of_err (wire : Option SignedToken) (now : Nat)
    (e : TokenError) (h : decodeToken wire "access" now = .error e) :
    verify_access_token wire now = none := by
  simp [verify_access_token, h]

/-- C6: for every subject and issue time, decoding the token produced by
`create_access_token` with expected kind "access" at the issue time itself
succeeds and returns the subject unchanged in the claims. -/
theorem access_token_roundtrip (s : String) (now : Nat) :
    decodeToken (some (create_access_token s now)) "access" now
      = .ok ⟨s, "access", now + ACCESS_TTL⟩ :=
  decode_access_ok s now now (by have := ACCESS_TTL_pos; omega)

/-- C7: for every subject, issue time and delay strictly greater than
`ACCESS_TTL`, decoding the freshly issued access token at `now + delta`
fails, and the failure is precisely `TokenError.expired`. -/
theorem access_token_expires (s : String) (now delta : Nat)
    (h : ACCESS_TTL < delta) :
    decodeToken (some (create_access_token s now)) "access" (now + delta)
      = .error .expired := by
  have hexp : ¬ (now + delta < now + ACCESS_TTL) := by omega
  simp [decodeToken, create_access_token, hexp]

theorem access_token_expires_witness :
    ACCESS_TTL < 1801 ∧
      decodeToken (some (create_access_token "alice" 0)) "access" (0 + 1801)
        = .error .expired :=
  ⟨by decide, access_token_expires "alice" 0 1801 (by decide)⟩

/-- C3: a refresh token never decodes when an access token is expected and
an access token never decodes when a refresh token is expected, whatever
the check time; and a refresh token presented to the guarded route is
rejected with the generic 401 `credentials_exception`. -/
theorem token_kinds_not_interchangeable (s : String) (nowIss nowChk : Nat)
    (db : List User) :
    (∃ e, decodeToken (some (create_refresh_token s nowIss)) "access" nowChk
      = .error e) ∧
    (∃ e, decodeToken (some (create_access_token s nowIss)) "refresh" nowChk
      = .error e) ∧
    protected_route (verify_access_token (some (create_refresh_token s nowIss)) nowChk) db
      = .error credentials_exception := by
  have h1 : ∃ e, decodeToken (some (create_refresh_token s nowIss)) "access" nowChk
      = .error e := by
    by_cases h : nowChk < nowIss + REFRESH_TTL
    · exact ⟨.invalid, by simp [decodeToken, create_refresh_token, h]⟩
    · exact ⟨.expired, by simp [decodeToken, create_refresh_token, h]⟩
  have h2 : ∃ e, decodeToken (some (create_access_token s nowIss)) "refresh" nowChk
      = .error e := by
    by_cases h : nowChk < nowIss + ACCESS_TTL
    · exact ⟨.invalid, by simp [decodeToken, create_access_token, h]⟩
    · exact ⟨.expired, by simp [decodeToken, create_access_token, h]⟩
  refine ⟨h1, h2, ?_⟩
  obtain ⟨e, he⟩ := h1
  rw [protected_route, verify_access_token_of_err _ _ e he]
  rfl

/-- C5: a signature-valid, unexpired access token whose subject no longer
matches any user row is rejected by the user guard with the generic 401,
and the protected handler never runs. -/
theorem deleted_principal_rejected (s : String) (nowIss nowChk : Nat)
    (db : List User) (hlt : nowChk < nowIss + ACCESS_TTL)
    (hfind : db.find? (fun u => u.username == s) = none) :
    protected_route (verify_access_token (some (create_access_token s nowIss)) nowChk) db
      = .error credentials_exception := by
  rw [protected_route, verify_access_token,
    decode_access_ok s nowIss nowChk hlt]
  simp [get_current_user, hfind, Except.map]

theorem deleted_principal_rejected_witness :
    (0 : Nat) < 0 + ACCESS_TTL ∧
      ([] : List User).find? (fun u => u.username == "ghost") = none ∧
      protected_route (verify_access_token (some (create_access_token "ghost" 0)) 0) []
        = .error credentials_exception :=
  ⟨by decide, rfl, deleted_principal_rejected "ghost" 0 0 [] (by decide) rfl⟩

/-- C1 counterexample: an authentication failure (admin principal-lookup
failure, a valid token whose subject matches no admin row) whose response
has status 403 — not 401 — a distinct detail, and no `WWW-Authenticate`
header, so not every authentication failure collapses to the single 401
response with the header. -/
theorem admin_lookup_failure_is_403 :
    get_admin_user (some ⟨some "ghost"⟩) []
        = .error ⟨403, "Not authorized to access this resource", false⟩ ∧
      (403 : Nat) ≠ 401 :=
  ⟨rfl, by decide⟩

/-- C1 (amended): every failure of the user guard collapses into the one
generic 401 with the `WWW-Authenticate: Bearer` header; but the admin
guard answers a missing `sub` with a different 401 detail and a failed
admin lookup with 403, distinct detail and no header, and the refresh
endpoint answers its failures with 401s carrying two distinct details and
no header, while an invalid refresh token there escapes as an unhandled
exception. -/
theorem auth_failure_responses :
    (∀ db : List User, get_current_user none db = .error credentials_exception) ∧
    (∀ db : List User, get_current_user (some ⟨none⟩) db = .error credentials_exception) ∧
    (∀ (s : String) (db : List User), db.find? (fun u => u.username == s) = none →
      get_current_user (some ⟨some s⟩) db = .error credentials_exception) ∧
    (∀ db : List Admin, get_admin_user none db
      = .error ⟨401, "Could not validate credentials", true⟩) ∧
    (∀ db : List Admin, get_admin_user (some ⟨none⟩) db
      = .error ⟨401, "Invalid token payload", true⟩) ∧
    (∀ (s : String) (db : List Admin), db.find? (fun a => a.username == s) = none →
      get_admin_user (some ⟨some s⟩) db
        = .error ⟨403, "Not authorized to access this resource", false⟩) ∧
    (∀ (db : List User) (now : Nat), get_refresh_token none db now = .unhandled) ∧
    (∀ (db : List User) (now : Nat), get_refresh_token (some ⟨none⟩) db now
      = .err ⟨401, "Invalid refresh token payload", false⟩) ∧
    (∀ (s : String) (db : List User) (now : Nat),
      db.find? (fun u => u.username == s) = none →
      get_refresh_token (some ⟨some s⟩) db now
        = .err ⟨401, "User not found", false⟩) := by
  refine ⟨fun _ => rfl, fun _ => rfl, ?_, fun _ => rfl, fun _ => rfl, ?_,
    fun _ _ => rfl, fun _ _ => rfl, ?_⟩
  · intro s db h
    simp [get_current_user, h]
  · intro s db h
    simp [get_admin_user, h]
  · intro s db now h
    simp [get_refresh_token, h]

theorem auth_failure_responses_witness :
    (([] : List User).find? (fun u => u.username == "ghost") = none ∧
      get_current_user (some ⟨some "ghost"⟩) [] = .error credentials_exception) ∧
    (([] : List Admin).find? (fun a => a.username == "ghost") = none ∧
      get_admin_user (some ⟨some "ghost"⟩) []
        = .error ⟨403, "Not authorized to access this resource", false⟩) ∧
    (([] : List User).find? (fun u => u.username == "ghost") = none ∧
      get_refresh_token (some ⟨some "ghost"⟩) [] 0
        = .err ⟨401, "User not found", false⟩) := by
  have h := auth_failure_responses
  exact ⟨⟨rfl, h.2.2.1 "ghost" [] rfl⟩,
    ⟨rfl, h.2.2.2.2.2.1 "ghost" [] rfl⟩,
    ⟨rfl, h.2.2.2.2.2.2.2.2 "ghost" [] 0 rfl⟩⟩

/-- C2 counterexample: the token minted by `user_login` for the user
subject "bob" (the login succeeds against the users table) is accepted by
the admin guard when an admin row named "bob" exists: the guard resolves
it to that Admin principal instead of rejecting the request. -/
theorem user_token_resolves_as_admin :
    user_login [⟨1, "bob", "bob@users.example", hash_password "pw123" 5⟩]
        "bob@users.example" "pw123" 0
      = .ok ⟨create_access_token "bob" 0, create_refresh_token "bob" 0, "bob", 1⟩ ∧
    get_admin_user (verify_access_token (some (create_access_token "bob" 0)) 0)
        [⟨7, "bob", "bob@admins.example", "irrelevant"⟩]
      = .ok ⟨7, "bob", "bob@admins.example", "irrelevant"⟩ :=
  ⟨rfl, rfl⟩

/-- C2 (amended): tokens carry no user/admin discriminator, so an access
token minted for a user subject resolves at the admin guard to an Admin
principal exactly when an admin row with the same username exists; only
when no admin row shares the username is the request rejected (then with
403, before the handler runs). -/
theorem user_token_admin_resolution (s : String) (now : Nat)
    (admins : List Admin) :
    get_admin_user (verify_access_token (some (create_access_token s now)) now) admins
      = match admins.find? (fun a => a.username == s) with
        | some a => .ok a
        | none => .error ⟨403, "Not authorized to access this resource", false⟩ := by
  rw [verify_access_token,
    decode_access_ok s now now (by have := ACCESS_TTL_pos; omega)]
  cases hfind : admins.find? (fun a => a.username == s) <;>
    simp [get_admin_user, hfind]

/-- C4: the two login operations answer a submission whose email matches no
row and a submission whose email matches but whose password fails
verification with literally the same response: the one
`invalid_credentials` value, status 400 and generic detail. -/
theorem login_failures_indistinguishable
    (db1 : List User) (e1 p1 : String) (n1 : Nat)
    (db2 : List User) (e2 p2 : String) (n2 : Nat) (u : User)
    (adb1 : List Admin) (ae1 ap1 : String) (an1 : Nat)
    (adb2 : List Admin) (ae2 ap2 : String) (an2 : Nat) (a : Admin)
    (h1 : db1.find? (fun x => x.email == e1) = none)
    (h2 : db2.find? (fun x => x.email == e2) = some u)
    (h3 : verify_password p2 u.hashed_password = false)
    (h4 : adb1.find? (fun x => x.email == ae1) = none)
    (h5 : adb2.find? (fun x => x.email == ae2) = some a)
    (h6 : verify_password ap2 a.hashed_password = false) :
    user_login db1 e1 p1 n1 = .error invalid_credentials ∧
    user_login db2 e2 p2 n2 = .error invalid_credentials ∧
    login adb1 ae1 ap1 an1 = .error invalid_credentials ∧
    login adb2 ae2 ap2 an2 = .error invalid_credentials := by
  refine ⟨?_, ?_, ?_, ?_⟩ <;> simp [user_login, login, h1, h2, h3, h4, h5, h6]

theorem login_failures_indistinguishable_witness :
    verify_password "badpw" (hash_password "goodpw" 2) = false ∧
    user_login [] "ghost@x.example" "p" 0 = .error invalid_credentials ∧
    user_login [⟨1, "al", "al@x.example", hash_password "goodpw" 2⟩]
      "al@x.example" "badpw" 0 = .error invalid_credentials ∧
    login [] "ghost@x.example" "p" 0 = .error invalid_credentials ∧
    login [⟨9, "root", "root@x.example", hash_password "adminpw" 4⟩]
      "root@x.example" "badpw" 0 = .error invalid_credentials := by
  have h := login_failures_indistinguishable
    [] "ghost@x.example" "p" 0
    [⟨1, "al", "al@x.example", hash_password "goodpw" 2⟩] "al@x.example" "badpw" 0
    ⟨1, "al", "al@x.example", hash_password "goodpw" 2⟩
    [] "ghost@x.example" "p" 0
    [⟨9, "root", "root@x.example", hash_password "adminpw" 4⟩]
    "root@x.example" "badpw" 0
    ⟨9, "root", "root@x.example", hash_password "adminpw" 4⟩
    rfl rfl (by decide) rfl rfl (by decide)
  exact ⟨by decide, h.1, h.2.1, h.2.2.1, h.2.2.2⟩

theorem isDigitCh_digitChar : ∀ d, d < 10 → isDigitCh (digitChar d) = true := by
  decide

theorem val_digitChar : ∀ d, d < 10 → (digitChar d).toNat - 48 = d := by
  decide

theorem digitChar_ne_dollar : ∀ d, d < 10 → (digitChar d != '$') = true := by
  decide

theorem natDigitsAux_lt : ∀ fuel n, ∀ d ∈ natDigitsAux fuel n, d < 10 := by
  intro fuel
  induction fuel with
  | zero =>
    intro n d hd
    cases n <;> simp [natDigitsAux] at hd
  | succ f ih =>
    intro n d hd
    cases n with
    | zero => simp [natDigitsAux] at hd
    | succ m =>
      rw [natDigitsAux] at hd
      rcases List.mem_cons.mp hd with h | h
      · subst h
        exact Nat.mod_lt _ (by norm_num)
      · exact ih _ d h

theorem ofDigs_nil : ofDigs [] = 0 := rfl

theorem ofDigs_cons (d : Nat) (ds : List Nat) :
    ofDigs (d :: ds) = d + 10 * ofDigs ds := rfl

theorem ofDigs_natDigitsAux : ∀ fuel n, n ≤ fuel →
    ofDigs (natDigitsAux fuel n) = n := by
  intro fuel
  induction fuel with
  | zero =>
    intro n h
    have h0 : n = 0 := by omega
    subst h0
    rfl
  | succ f ih =>
    intro n h
    cases n with
    | zero => rfl
    | succ m =>
      have hdiv : (m + 1) / 10 ≤ f := by
        have := Nat.div_lt_self (Nat.succ_pos m) (by norm_num : 1 < 10)
        omega
      rw [natDigitsAux, ofDigs_cons, ih _ hdiv]
      have := Nat.mod_add_div (m + 1) 10
      omega

theorem foldl_digit_chars : ∀ (ds : List Nat) (acc : Nat), (∀ d ∈ ds, d < 10) →
    ((ds.map digitChar).reverse).foldl (fun a c => a * 10 + (c.toNat - 48)) acc
      = acc * 10 ^ ds.length + ofDigs ds := by
  intro ds
  induction ds with
  | nil =>
    intro acc _
    simp [ofDigs_nil]
  | cons d ds ih =>
    intro acc h
    have hd : d < 10 := h d (List.mem_cons_self d ds)
    simp only [List.map_cons, List.reverse_cons, List.foldl_append,
      List.foldl_cons, List.foldl_nil]
    rw [ih acc (fun x hx => h x (List.mem_cons_of_mem d hx)),
      val_digitChar d hd, ofDigs_cons, List.length_cons]
    ring

theorem natChars_all_digits (n : Nat) : (natChars n).all isDigitCh = true := by
  rw [natChars, List.all_eq_true]
  intro c hc
  rw [List.mem_reverse] at hc
  obtain ⟨d, hd, rfl⟩ := List.mem_map.mp hc
  exact isDigitCh_digitChar d (natDigitsAux_lt n n d hd)

theorem parseNat_natChars (n : Nat) : parseNat (natChars n) = some n := by
  rw [parseNat, if_pos (natChars_all_digits n), natChars,
    foldl_digit_chars _ 0 (natDigitsAux_lt n n), ofDigs_natDigitsAux n n le_rfl]
  simp

theorem natChars_ne_dollar (n : Nat) : ∀ c ∈ natChars n, (c != '$') = true := by
  intro c hc
  rw [natChars, List.mem_reverse] at hc
  obtain ⟨d, hd, rfl⟩ := List.mem_map.mp hc
  exact digitChar_ne_dollar d (natDigitsAux_lt n n d hd)

theorem takeWhile_dropWhile_append {α : Type} (p : α → Bool) (xs : List α)
    (y : α) (ys : List α) (hx : ∀ x ∈ xs, p x = true) (hy : p y = false) :
    (xs ++ y :: ys).takeWhile p = xs ∧ (xs ++ y :: ys).dropWhile p = y :: ys := by
  induction xs with
  | nil => simp [List.takeWhile_cons, List.dropWhile_cons, hy]
  | cons a as ih =>
    have ha := hx a (List.mem_cons_self a as)
    have ih' := ih (fun x hx' => hx x (List.mem_cons_of_mem a hx'))
    simp [List.takeWhile_cons, List.dropWhile_cons, ha, ih'.1, ih'.2]

theorem parseDigest_hash (pt : String) (salt : Nat) :
    parseDigest (hash_password pt salt) = some (salt, hashCore salt pt) := by
  have hdata : (hash_password pt salt).data
      = natChars salt ++ '$' :: natChars (hashCore salt pt) := rfl
  obtain ⟨ht, hdrop⟩ := takeWhile_dropWhile_append (fun c => c != '$')
    (natChars salt) '$' (natChars (hashCore salt pt))
    (natChars_ne_dollar salt) (by decide)
  rw [parseDigest, hdata, hdrop]
  simp only [ht, parseNat_natChars]

/-- C8: verifying a plaintext against its own digest succeeds for every
plaintext and every salt embedded by the hasher, and verification of any
malformed digest returns `false` rather than raising. -/
theorem password_hash_verifies :
    (∀ (pt : String) (salt : Nat),
      verify_password pt (hash_password pt salt) = true) ∧
    (∀ (pt d : String), parseDigest d = none → verify_password pt d = false) := by
  constructor
  · intro pt salt
    simp [verify_password, parseDigest_hash]
  · intro pt d h
    simp [verify_password, h]

theorem password_hash_verifies_witness :
    verify_password "s3cret" (hash_password "s3cret" 12) = true ∧
    parseDigest "nodollar" = none ∧
    verify_password "s3cret" "nodollar" = false :=
  ⟨password_hash_verifies.1 "s3cret" 12, by decide,
    password_hash_verifies.2 "s3cret" "nodollar" (by decide)⟩

theorem find?_eq_of_mem_unique {α : Type} (p : α → Bool) (l : List α) (u : α)
    (hu : u ∈ l) (hp : p u = true) (huniq : ∀ x ∈ l, p x = true → x = u) :
    l.find? p = some u := by
  induction l with
  | nil => cases hu
  | cons a as ih =>
    by_cases ha : p a = true
    · have hau : a = u := huniq a (List.mem_cons_self a as) ha
      subst hau
      exact List.find?_cons_of_pos as ha
    · rw [List.find?_cons_of_neg as ha]
      have hu' : u ∈ as := by
        rcases List.mem_cons.mp hu with h | h
        · subst h
          exact absurd hp ha
        · exact h
      exact ih hu' (fun x hx hpx => huniq x (List.mem_cons_of_mem a hx) hpx)

theorem username_unique_mem (db : List User)
    (hP : db.Pairwise (fun a b => a.username ≠ b.username))
    (x u : User) (hx : x ∈ db) (hu : u ∈ db) (h : x.username = u.username) :
    x = u := by
  by_contra hne
  exact (hP.forall (fun _ _ hab => hab.symm) hx hu hne) h

theorem id_unique_mem (db : List User)
    (hP : db.Pairwise (fun a b => a.id ≠ b.id))
    (x u : User) (hx : x ∈ db) (hu : u ∈ db) (h : x.id = u.id) :
    x = u := by
  by_contra hne
  exact (hP.forall (fun _ _ hab => hab.symm) hx hu hne) h

/-- C9: when the authenticated caller's row is in the session state (the
guard's postcondition) and the table invariants hold (unique usernames,
unique primary keys), `delete_account` cannot hit the `first()[0]`
subscript failure, cannot reach the 404 branch, and deletes exactly the
caller's own row. -/
theorem delete_account_deletes_caller (db : List User) (u : User)
    (hu : u ∈ db)
    (hname : db.Pairwise (fun a b => a.username ≠ b.username))
    (hid : db.Pairwise (fun a b => a.id ≠ b.id)) :
    delete_account db u
      = .ok ("Deleted account of '" ++ u.username ++ "' successfully",
          db.erase u) := by
  have h1 : db.find? (fun x => x.username == u.username && x.email == u.email)
      = some u := by
    apply find?_eq_of_mem_unique _ _ _ hu (by simp)
    intro x hx hpx
    have hxu : x.username = u.username := by
      have := (Bool.and_eq_true _ _).mp hpx
      exact beq_iff_eq.mp this.1
    exact username_unique_mem db hname x u hx hu hxu
  have h2 : db.find? (fun x => x.id == u.id) = some u := by
    apply find?_eq_of_mem_unique _ _ _ hu (by simp)
    intro x hx hpx
    exact id_unique_mem db hid x u hx hu (beq_iff_eq.mp hpx)
  simp [delete_account, h1, h2]

theorem delete_account_deletes_caller_witness :
    (⟨1, "alice", "alice@x.example", "d1"⟩ : User)
        ∈ [⟨1, "alice", "alice@x.example", "d1"⟩, ⟨2, "bob", "bob@x.example", "d2"⟩] ∧
    ([⟨1, "alice", "alice@x.example", "d1"⟩,
        ⟨2, "bob", "bob@x.example", "d2"⟩] : List User).Pairwise
      (fun a b => a.username ≠ b.username) ∧
    ([⟨1, "alice", "alice@x.example", "d1"⟩,
        ⟨2, "bob", "bob@x.example", "d2"⟩] : List User).Pairwise
      (fun a b => a.id ≠ b.id) ∧
    delete_account
        [⟨1, "alice", "alice@x.example", "d1"⟩, ⟨2, "bob", "bob@x.example", "d2"⟩]
        ⟨1, "alice", "alice@x.example", "d1"⟩
      = .ok ("Deleted account of 'alice' successfully",
          [⟨2, "bob", "bob@x.example", "d2"⟩]) := by
  refine ⟨by decide, by decide, by decide, ?_⟩
  have h := delete_account_deletes_caller
    [⟨1, "alice", "alice@x.example", "d1"⟩, ⟨2, "bob", "bob@x.example", "d2"⟩]
    ⟨1, "alice", "alice@x.example", "d1"⟩
    (by decide) (by decide) (by decide)
  exact h

theorem infix_star_cons (t : List Char) :
    passwordPat <:+: '*' :: t ↔ passwordPat <:+: t := by
  constructor
  · intro h
    rcases List.infix_cons_iff.mp h with h | h
    · exfalso
      have h' : 'p' :: ['a', 's', 's', 'w', 'o', 'r', 'd'] <+: '*' :: t := h
      exact absurd (List.cons_prefix_cons.mp h').1 (by decide)
    · exact h
  · exact fun h => List.infix_cons_iff.mpr (Or.inr h)

theorem sanitizeAux_prefix_transfer : ∀ (fuel : Nat) (l q : List Char),
    l.length ≤ fuel → '*' ∉ q → q <+: sanitizeAux fuel l → q <+: l := by
  intro fuel
  induction fuel with
  | zero =>
    intro l q hlen hstar hq
    have hl : l = [] := List.length_eq_zero.mp (Nat.le_zero.mp hlen)
    subst hl
    exact hq
  | succ f ih =>
    intro l q hlen hstar hq
    cases l with
    | nil => exact hq
    | cons c cs =>
      rw [sanitizeAux] at hq
      by_cases hp : passwordPat <+: c :: cs
      · rw [if_pos hp] at hq
        cases q with
        | nil => exact ⟨c :: cs, rfl⟩
        | cons qc qt =>
          exfalso
          have hq' : qc :: qt
              <+: '*' :: ('*' :: '*' :: '*' :: sanitizeAux f (cs.drop 7)) := hq
          have hqc := (List.cons_prefix_cons.mp hq').1
          exact hstar (hqc ▸ List.mem_cons_self qc qt)
      · rw [if_neg hp] at hq
        cases q with
        | nil => exact ⟨c :: cs, rfl⟩
        | cons qc qt =>
          obtain ⟨hqc, hqt⟩ := List.cons_prefix_cons.mp hq
          have hcs : cs.length ≤ f := by
            simp only [List.length_cons] at hlen
            omega
          have h2 := ih cs qt hcs
            (fun hmem => hstar (List.mem_cons_of_mem qc hmem)) hqt
          exact List.cons_prefix_cons.mpr ⟨hqc, h2⟩

theorem sanitizeAux_no_pat : ∀ (fuel : Nat) (l : List Char),
    l.length ≤ fuel → ¬ passwordPat <:+: sanitizeAux fuel l := by
  intro fuel
  induction fuel with
  | zero =>
    intro l hlen h
    have hl : l = [] := List.length_eq_zero.mp (Nat.le_zero.mp hlen)
    subst hl
    exact absurd (List.sublist_nil.mp h.sublist) (by decide)
  | succ f ih =>
    intro l hlen h
    cases l with
    | nil => exact absurd (List.sublist_nil.mp h.sublist) (by decide)
    | cons c cs =>
      rw [sanitizeAux] at h
      by_cases hp : passwordPat <+: c :: cs
      · rw [if_pos hp] at h
        have hlen' : (cs.drop 7).length ≤ f := by
          simp only [List.length_cons] at hlen
          simp only [List.length_drop]
          omega
        have h1 : passwordPat
            <:+: '*' :: ('*' :: '*' :: '*' :: sanitizeAux f (cs.drop 7)) := h
        rw [infix_star_cons, infix_star_cons, infix_star_cons,
          infix_star_cons] at h1
        exact ih _ hlen' h1
      · rw [if_neg hp] at h
        have hcs : cs.length ≤ f := by
          simp only [List.length_cons] at hlen
          omega
        rcases List.infix_cons_iff.mp h with h1 | h1
        · obtain ⟨hc, htail⟩ := List.cons_prefix_cons.mp
            (show 'p' :: ['a', 's', 's', 'w', 'o', 'r', 'd']
              <+: c :: sanitizeAux f cs from h1)
          have htl := sanitizeAux_prefix_transfer f cs
            ['a', 's', 's', 'w', 'o', 'r', 'd'] hcs (by decide) htail
          exact hp (List.cons_prefix_cons.mpr ⟨hc, htl⟩)
        · exact ih cs hcs h1

theorem sanitizeAux_id_of_no_pat : ∀ (fuel : Nat) (l : List Char),
    ¬ passwordPat <:+: l → sanitizeAux fuel l = l := by
  intro fuel
  induction fuel with
  | zero => intro l _; cases l <;> rfl
  | succ f ih =>
    intro l h
    cases l with
    | nil => rfl
    | cons c cs =>
      rw [sanitizeAux, if_neg (fun hp => h (List.IsPrefix.isInfix hp)),
        ih cs (fun hcs => h (List.infix_cons_iff.mpr (Or.inr hcs)))]

/-- C10: `get_logs` returns at most `limit` lines; every returned line is
the sanitized image of a line of the log file; a sanitized line contains no
occurrence of the exact substring "password"; and any line without such an
occurrence (in particular any other casing, such as "Password") is
returned unmodified. -/
theorem get_logs_spec (fileLines : List (List Char)) (skip limit : Nat) :
    (get_logs fileLines skip limit).length ≤ limit ∧
    (∀ l ∈ get_logs fileLines skip limit,
      ∃ orig ∈ fileLines, l = sanitizeLine orig) ∧
    (∀ s : List Char, ¬ passwordPat <:+: sanitizeLine s) ∧
    (∀ s : List Char, ¬ passwordPat <:+: s → sanitizeLine s = s) := by
  refine ⟨?_, ?_, ?_, ?_⟩
  · rw [get_logs]
    exact List.length_take_le _ _
  · intro l hl
    rw [get_logs] at hl
    have h1 : l ∈ (fileLines.map sanitizeLine).drop skip :=
      (List.take_sublist _ _).subset hl
    have h2 : l ∈ fileLines.map sanitizeLine :=
      (List.drop_sublist _ _).subset h1
    obtain ⟨orig, ho, rfl⟩ := List.mem_map.mp h2
    exact ⟨orig, ho, rfl⟩
  · intro s
    exact sanitizeAux_no_pat s.length s le_rfl
  · intro s hs
    exact sanitizeAux_id_of_no_pat s.length s hs

theorem get_logs_spec_witness :
    (get_logs ["user password: hunter2".data, "Password: KEEP".data] 0 10).length
        ≤ 10 ∧
    (∃ orig ∈ ["user password: hunter2".data, "Password: KEEP".data],
      "user ****: hunter2".data = sanitizeLine orig) ∧
    (¬ passwordPat <:+: sanitizeLine "user password: hunter2".data) ∧
    (¬ passwordPat <:+: "Password: KEEP".data) ∧
    sanitizeLine "Password: KEEP".data = "Password: KEEP".data := by
  have h := get_logs_spec ["user password: hunter2".data, "Password: KEEP".data] 0 10
  exact ⟨h.1, h.2.1 "user ****: hunter2".data (by decide), h.2.2.1 _,
    by decide, h.2.2.2 "Password: KEEP".data (by decide)⟩
